import Mathlib

/-!
Verification of the seekable reader in `reader.go` of `bobg/gcsobj`.

The reader wraps a remote object handle.  We embed the `Reader` struct as a
record holding the fields the algorithms touch: whether the underlying range
stream `r.r` is open, the logical position `pos`, the fixed `size`, and the
byte counter `nread`.  The external collaborator (the GCS object handle and
its range streams) is modelled by oracle parameters: each operation takes the
response the environment would give to the I/O calls the Go code makes
(`NewRangeReader`, the stream's `Read`, the stream's `Close`), and consumes a
response only on the control path where the Go code actually performs that
call.  Each operation also returns the list of I/O effects it performed, so
that frame properties ("performs no range fetch") are statable.
-/

namespace Gcsobj

/-- Go errors, as the reader distinguishes them: `io.EOF`, the locally
constructed `fmt.Errorf("illegal whence value %d", whence)`, and opaque
errors produced by the environment (transport, auth, ...). -/
inductive GoErr where
  | eof
  | illegalWhence (whence : Int)
  | env (code : Nat)
deriving Repr, DecidableEq

/-- The error message carried by a `GoErr`; for `illegalWhence` it mirrors
`fmt.Errorf("illegal whence value %d", whence)` in `Seek`. -/
def GoErr.message : GoErr → String
  | .eof => "EOF"
  | .illegalWhence w => "illegal whence value " ++ toString w
  | .env c => "environment error " ++ toString c

/-- The `Reader` struct of reader.go.  `r` is true exactly when the Go field
`r.r` (the open `storage.Reader`) is non-nil; `pos`, `size`, `nread` are the
int64 fields of the same names.  The embedded `ctx` and `obj` fields are
opaque capabilities never inspected by the algorithms, so they are not part
of the state. -/
structure Reader where
  r : Bool
  pos : Int
  size : Int
  nread : Int
deriving Repr, DecidableEq

/-- An I/O call performed on the object handle or the open stream. -/
inductive Effect where
  | openRange (start : Int)
  | closeStream
  | streamRead (n : Nat)
deriving Repr, DecidableEq

/-- `NewReaderWithSize(ctx, obj, size)`: builds the struct with only `ctx`,
`obj`, `size` set (Go zero-values the rest). -/
def NewReaderWithSize (size : Int) : Reader :=
  { r := false, pos := 0, size := size, nread := 0 }

/-- `NewReader(ctx, obj)`: calls `obj.Attrs(ctx)`; on failure propagates the
error, on success delegates to `NewReaderWithSize` with `attrs.Size`.  The
oracle `attrs` is the outcome of the `Attrs` call. -/
def NewReader (attrs : Except GoErr Int) : Except GoErr Reader :=
  match attrs with
  | .error e => .error e
  | .ok size => .ok (NewReaderWithSize size)

/-- `Close()`: if `r.r == nil` return nil doing nothing; otherwise call
`r.r.Close()` (oracle `closeErr`), set `r.r = nil`, and return the close
error.  Returns (error, new state, effects). -/
def Close (s : Reader) (closeErr : Option GoErr) :
    Option GoErr × Reader × List Effect :=
  if s.r then (closeErr, { s with r := false }, [Effect.closeStream])
  else (none, s, [])

/-- `Read(dest)`: if no stream is open and `pos < size`, call
`obj.NewRangeReader(ctx, pos, -1)` (oracle `openErr`; an `openRange` effect
is recorded whether or not it fails), returning `(0, err)` on failure.  If
still no stream is open, return `(0, io.EOF)`.  Otherwise delegate to the
stream's `Read` (oracle `sr = (n, err)`), add `n` to `pos` and to `nread`,
and return `(n, err)`.  Returns ((n, error), new state, effects). -/
def Read (s : Reader) (openErr : Option GoErr) (sr : Nat × Option GoErr) :
    (Nat × Option GoErr) × Reader × List Effect :=
  if s.r = false ∧ s.pos < s.size then
    match openErr with
    | some e => ((0, some e), s, [Effect.openRange s.pos])
    | none =>
        ((sr.1, sr.2),
          { s with r := true, pos := s.pos + (sr.1 : Int),
                   nread := s.nread + (sr.1 : Int) },
          [Effect.openRange s.pos, Effect.streamRead sr.1])
  else if s.r = false then
    ((0, some GoErr.eof), s, [])
  else
    ((sr.1, sr.2),
      { s with pos := s.pos + (sr.1 : Int), nread := s.nread + (sr.1 : Int) },
      [Effect.streamRead sr.1])

/-- `Seek(offset, whence)`: first `err := r.Close()` (so any open stream is
closed even when `whence` is invalid), failing fast with `(0, err)` on close
failure; then switch on `whence` (`io.SeekStart = 0`, `io.SeekCurrent = 1`,
`io.SeekEnd = 2`), updating `pos` and returning it, or returning the
"illegal whence value" error on any other `whence`. -/
def Seek (s : Reader) (closeErr : Option GoErr) (offset : Int) (whence : Int) :
    (Int × Option GoErr) × Reader × List Effect :=
  match Close s closeErr with
  | (some e, s1, eff) => ((0, some e), s1, eff)
  | (none, s1, eff) =>
    if whence = 0 then ((offset, none), { s1 with pos := offset }, eff)
    else if whence = 1 then
      ((s1.pos + offset, none), { s1 with pos := s1.pos + offset }, eff)
    else if whence = 2 then
      ((s1.size + offset, none), { s1 with pos := s1.size + offset }, eff)
    else ((0, some (GoErr.illegalWhence whence)), s1, eff)

/-- `NRead()`: atomically loads and returns the `nread` counter. -/
def NRead (s : Reader) : Int := s.nread

/-- One operation of the reader's public mutating interface, bundled with the
environment's responses to the I/O calls it may make. -/
inductive Op where
  | read (openErr : Option GoErr) (sr : Nat × Option GoErr)
  | seek (closeErr : Option GoErr) (offset : Int) (whence : Int)
  | close (closeErr : Option GoErr)
deriving Repr, DecidableEq

/-- The state after one operation. -/
def step (s : Reader) : Op → Reader
  | .read oe sr => (Read s oe sr).2.1
  | .seek ce off w => (Seek s ce off w).2.1
  | .close ce => (Close s ce).2.1

/-- The I/O effects of one operation. -/
def stepEff (s : Reader) : Op → List Effect
  | .read oe sr => (Read s oe sr).2.2
  | .seek ce off w => (Seek s ce off w).2.2
  | .close ce => (Close s ce).2.2

/-- The state after a sequence of operations. -/
def run (s : Reader) : List Op → Reader
  | [] => s
  | op :: ops => run (step s op) ops

/-- The I/O effects of a sequence of operations, in order. -/
def runEff (s : Reader) : List Op → List Effect
  | [] => []
  | op :: ops => stepEff s op ++ runEff (step s op) ops

/-- True of an operation exactly when it is a Seek. -/
def Op.isSeek : Op → Bool
  | .seek _ _ _ => true
  | _ => false

/-- True of an effect list containing no range-stream open. -/
def noOpen (effs : List Effect) : Bool :=
  effs.all fun e => match e with
    | .openRange _ => false
    | _ => true

/-- The number of bytes an operation's Read returns (0 for Seek/Close). -/
def opBytes (s : Reader) : Op → Int
  | .read oe sr => ((Read s oe sr).1.1 : Int)
  | _ => 0

/-- The sum of the byte counts returned by the Reads of a trace. -/
def readSum : Reader → List Op → Int
  | _, [] => 0
  | s, op :: ops => opBytes s op + readSum (step s op) ops

/-- Each Seek in a trace, run from its intermediate state, returns a
non-negative position. -/
def seeksNonneg : Reader → List Op → Bool
  | _, [] => true
  | s, op :: ops =>
    (match op with
     | Op.seek ce off w => decide (0 ≤ (Seek s ce off w).1.1)
     | _ => true) && seeksNonneg (step s op) ops

/-! ### Helper lemmas -/

lemma Seek_eff (s : Reader) (ce : Option GoErr) (off w : Int) :
    (Seek s ce off w).2.2 = if s.r then [Effect.closeStream] else [] := by
  cases hr : s.r <;> cases ce <;>
    simp [Seek, Close, hr] <;> split_ifs <;> rfl

lemma Close_pos (s : Reader) (ce : Option GoErr) :
    (Close s ce).2.1.pos = s.pos := by
  unfold Close
  split <;> rfl

lemma Read_pos (s : Reader) (oe : Option GoErr) (sr : Nat × Option GoErr) :
    (Read s oe sr).2.1.pos = s.pos ∨
    (Read s oe sr).2.1.pos = s.pos + (sr.1 : Int) := by
  unfold Read
  split
  · cases oe <;> simp
  · split <;> simp

lemma Seek_pos (s : Reader) (ce : Option GoErr) (off w : Int) :
    (Seek s ce off w).2.1.pos = s.pos ∨
    (Seek s ce off w).2.1.pos = (Seek s ce off w).1.1 := by
  cases hr : s.r <;> cases ce <;>
    simp [Seek, Close, hr] <;> split_ifs <;> simp

lemma step_nread (s : Reader) (op : Op) :
    (step s op).nread = s.nread + opBytes s op := by
  cases op with
  | read oe sr =>
    simp only [step, opBytes]
    unfold Read
    split
    · cases oe <;> simp
    · split <;> simp
  | seek ce off w =>
    simp only [step, opBytes]
    cases hr : s.r <;> cases ce <;>
      simp [Seek, Close, hr] <;> split_ifs <;> simp
  | close ce =>
    simp only [step, opBytes]
    unfold Close
    split <;> simp

lemma run_nread : ∀ (ops : List Op) (s : Reader),
    (run s ops).nread = s.nread + readSum s ops := by
  intro ops
  induction ops with
  | nil => intro s; simp [run, readSum]
  | cons op ops ih =>
    intro s
    simp only [run, readSum]
    rw [ih, step_nread]
    ring

lemma opBytes_nonneg (s : Reader) (op : Op) : 0 ≤ opBytes s op := by
  cases op with
  | read oe sr => exact Int.natCast_nonneg _
  | seek ce off w => exact le_refl 0
  | close ce => exact le_refl 0

lemma readSum_nonneg : ∀ (ops : List Op) (s : Reader), 0 ≤ readSum s ops := by
  intro ops
  induction ops with
  | nil => intro s; exact le_refl 0
  | cons op ops ih =>
    intro s
    have h1 := opBytes_nonneg s op
    have h2 := ih (step s op)
    simp only [readSum]
    omega

lemma seeks_noOpen : ∀ (ops : List Op) (s : Reader),
    (∀ op ∈ ops, op.isSeek = true) → noOpen (runEff s ops) = true := by
  intro ops
  induction ops with
  | nil => intro s _; rfl
  | cons op ops ih =>
    intro s h
    have hop := h op (List.mem_cons_self _ _)
    have htl := ih (step s op) (fun o ho => h o (List.mem_cons_of_mem _ ho))
    cases op with
    | read oe sr => simp [Op.isSeek] at hop
    | close ce => simp [Op.isSeek] at hop
    | seek ce off w =>
      have heff : noOpen (stepEff s (Op.seek ce off w)) = true := by
        simp only [stepEff, Seek_eff]
        cases s.r <;> rfl
      simp only [runEff, noOpen, List.all_append, Bool.and_eq_true]
      exact ⟨heff, htl⟩

lemma run_pos_nonneg : ∀ (ops : List Op) (s : Reader),
    0 ≤ s.pos → seeksNonneg s ops = true → 0 ≤ (run s ops).pos := by
  intro ops
  induction ops with
  | nil => intro s hs _; exact hs
  | cons op ops ih =>
    intro s hs h
    simp only [seeksNonneg, Bool.and_eq_true] at h
    obtain ⟨h1, h2⟩ := h
    refine ih (step s op) ?_ h2
    cases op with
    | read oe sr =>
      have hn : (0 : Int) ≤ (sr.1 : Int) := Int.natCast_nonneg _
      rcases Read_pos s oe sr with heq | heq <;> simp only [step] <;> omega
    | close ce =>
      simp only [step, Close_pos]
      exact hs
    | seek ce off w =>
      simp only [decide_eq_true_eq] at h1
      rcases Seek_pos s ce off w with heq | heq <;> simp only [step] <;> omega

/-! ### Claim theorems -/

/-- Claim C1: for every reader state, when the initial close of any open
stream succeeds, Seek sets the logical position to `offset` for
start-relative (whence 0), current position plus `offset` for
current-relative (whence 1), and `size + offset` for end-relative
(whence 2), and returns that new logical position with no error. -/
theorem C1_seek_valid_origins (s : Reader) (ce : Option GoErr) (off : Int)
    (h : s.r = true → ce = none) :
    (Seek s ce off 0).1 = (off, none) ∧
    (Seek s ce off 0).2.1.pos = off ∧
    (Seek s ce off 1).1 = (s.pos + off, none) ∧
    (Seek s ce off 1).2.1.pos = s.pos + off ∧
    (Seek s ce off 2).1 = (s.size + off, none) ∧
    (Seek s ce off 2).2.1.pos = s.size + off := by
  cases hr : s.r
  · simp [Seek, Close, hr]
  · have hce := h hr
    subst hce
    simp [Seek, Close, hr]

/-- Witness for C1 at a concrete state with an open stream. -/
theorem C1_seek_valid_origins_witness :
    (Seek ⟨true, 5, 100, 0⟩ none 7 0).1 = (7, none) ∧
    (Seek ⟨true, 5, 100, 0⟩ none 7 0).2.1.pos = 7 ∧
    (Seek ⟨true, 5, 100, 0⟩ none 7 1).1 = ((5 : Int) + 7, none) ∧
    (Seek ⟨true, 5, 100, 0⟩ none 7 1).2.1.pos = (5 : Int) + 7 ∧
    (Seek ⟨true, 5, 100, 0⟩ none 7 2).1 = ((100 : Int) + 7, none) ∧
    (Seek ⟨true, 5, 100, 0⟩ none 7 2).2.1.pos = (100 : Int) + 7 :=
  C1_seek_valid_origins ⟨true, 5, 100, 0⟩ none 7 (fun _ => rfl)

/-- Counterexample to C4 as stated: with an open stream, Seek with the
invalid whence 7 does return the illegal-whence error, but it does NOT leave
the open stream untouched — the stream is closed (a `closeStream` effect is
performed and the open-stream reference is cleared) before the whence value
is examined. -/
theorem C4_counterexample :
    (Seek ⟨true, 5, 10, 0⟩ none 0 7).1 = (0, some (GoErr.illegalWhence 7)) ∧
    (Seek ⟨true, 5, 10, 0⟩ none 0 7).2.1.r = false ∧
    (Seek ⟨true, 5, 10, 0⟩ none 0 7).2.2 = [Effect.closeStream] ∧
    (⟨true, 5, 10, 0⟩ : Reader).r = true := by
  decide

/-- Claim C4 (amended): for every reader state, Seek with a whence outside
{0, 1, 2} first closes any open stream (assuming that close succeeds) and
then returns an error whose message includes the invalid whence value,
leaving the logical position untouched. -/
theorem C4_illegal_origin (s : Reader) (ce : Option GoErr) (off w : Int)
    (hw0 : w ≠ 0) (hw1 : w ≠ 1) (hw2 : w ≠ 2) (hc : s.r = true → ce = none) :
    (Seek s ce off w).1 = (0, some (GoErr.illegalWhence w)) ∧
    (Seek s ce off w).2.1.pos = s.pos ∧
    (Seek s ce off w).2.1.r = false ∧
    (GoErr.illegalWhence w).message = "illegal whence value " ++ toString w := by
  cases hr : s.r
  · simp [Seek, Close, hr, hw0, hw1, hw2, GoErr.message]
  · have hce := hc hr
    subst hce
    simp [Seek, Close, hr, hw0, hw1, hw2, GoErr.message]

/-- Witness for the amended C4 at a concrete state. -/
theorem C4_illegal_origin_witness :
    (Seek ⟨false, 5, 10, 0⟩ none 3 7).1 = (0, some (GoErr.illegalWhence 7)) ∧
    (Seek ⟨false, 5, 10, 0⟩ none 3 7).2.1.pos = 5 ∧
    (Seek ⟨false, 5, 10, 0⟩ none 3 7).2.1.r = false ∧
    (GoErr.illegalWhence 7).message = "illegal whence value " ++ toString (7 : Int) :=
  C4_illegal_origin ⟨false, 5, 10, 0⟩ none 3 7 (by decide) (by decide) (by decide)
    (fun h => absurd h (by decide))

/-- Claim C5: for every reader state with no open stream and position before
the end, if opening the range stream fails, Read returns 0 bytes and that
error, and the state (position, counter, absence of open stream) is exactly
unchanged; the only effect is the failed open attempt. -/
theorem C5_open_failure (s : Reader) (e : GoErr) (sr : Nat × Option GoErr)
    (hr : s.r = false) (hp : s.pos < s.size) :
    Read s (some e) sr = ((0, some e), s, [Effect.openRange s.pos]) := by
  simp [Read, hr, hp]

/-- Witness for C5 at a concrete state. -/
theorem C5_open_failure_witness :
    Read ⟨false, 3, 10, 0⟩ (some (GoErr.env 1)) (4, none)
      = ((0, some (GoErr.env 1)), ⟨false, 3, 10, 0⟩, [Effect.openRange 3]) :=
  C5_open_failure ⟨false, 3, 10, 0⟩ (GoErr.env 1) (4, none) rfl (by decide)

/-- Claim C7: for every reader state with an open stream, if closing that
stream at the start of Seek fails, Seek returns that close error and the
logical position is not updated. -/
theorem C7_seek_close_failure (s : Reader) (off w : Int) (e : GoErr)
    (hr : s.r = true) :
    (Seek s (some e) off w).1 = (0, some e) ∧
    (Seek s (some e) off w).2.1.pos = s.pos := by
  simp [Seek, Close, hr]

/-- Witness for C7 at a concrete state. -/
theorem C7_seek_close_failure_witness :
    (Seek ⟨true, 42, 100, 9⟩ (some (GoErr.env 2)) 7 0).1 = (0, some (GoErr.env 2)) ∧
    (Seek ⟨true, 42, 100, 9⟩ (some (GoErr.env 2)) 7 0).2.1.pos = 42 :=
  C7_seek_close_failure ⟨true, 42, 100, 9⟩ 7 0 (GoErr.env 2) rfl

/-- Claim C8: Close is idempotent: with no open stream it returns no error
and changes nothing; with an open stream it releases it (one `closeStream`
effect), clears the open-stream reference and propagates the release error;
and a second Close immediately after any Close returns no error and performs
no release. -/
theorem C8_close_idempotent (s : Reader) (e1 e2 : Option GoErr) :
    (s.r = false → Close s e1 = (none, s, [])) ∧
    (s.r = true → Close s e1 = (e1, { s with r := false }, [Effect.closeStream])) ∧
    Close (Close s e1).2.1 e2 = (none, (Close s e1).2.1, []) := by
  cases hr : s.r <;> simp [Close, hr]

/-- Witness for C8 at a concrete state with an open stream and a failing
release. -/
theorem C8_close_idempotent_witness :
    ((⟨true, 4, 10, 2⟩ : Reader).r = false →
      Close ⟨true, 4, 10, 2⟩ (some (GoErr.env 3)) = (none, ⟨true, 4, 10, 2⟩, [])) ∧
    ((⟨true, 4, 10, 2⟩ : Reader).r = true →
      Close ⟨true, 4, 10, 2⟩ (some (GoErr.env 3))
        = (some (GoErr.env 3), ⟨false, 4, 10, 2⟩, [Effect.closeStream])) ∧
    Close (Close ⟨true, 4, 10, 2⟩ (some (GoErr.env 3))).2.1 (some (GoErr.env 4))
      = (none, (Close ⟨true, 4, 10, 2⟩ (some (GoErr.env 3))).2.1, []) :=
  C8_close_idempotent ⟨true, 4, 10, 2⟩ (some (GoErr.env 3)) (some (GoErr.env 4))

/-- Counterexample to C2 as stated: the state reached by reading the single
byte of a size-1 object has `pos = size` but the range stream still open; a
Read in that state delegates to the stream, so an underlying transport error
is propagated — the Read returns an error other than the end-of-stream
signal, refuting "never returns any other error" for every state with
`pos >= size`. -/
theorem C2_counterexample :
    (run (NewReaderWithSize 1) [Op.read none (1, none)]).size ≤
      (run (NewReaderWithSize 1) [Op.read none (1, none)]).pos ∧
    (Read (run (NewReaderWithSize 1) [Op.read none (1, none)]) none
        (0, some (GoErr.env 0))).1 = (0, some (GoErr.env 0)) ∧
    (Read (run (NewReaderWithSize 1) [Op.read none (1, none)]) none
        (0, some (GoErr.env 0))).1.2 ≠ some GoErr.eof := by
  decide

/-- Claim C2 (amended): for every reader state with NO open stream and
`pos >= size`, Read returns 0 bytes with the end-of-stream signal, performs
no effect (in particular opens no range stream), never returns any other
error, and leaves the state unchanged. -/
theorem C2_read_eof (s : Reader) (oe : Option GoErr) (sr : Nat × Option GoErr)
    (hr : s.r = false) (hp : s.size ≤ s.pos) :
    Read s oe sr = ((0, some GoErr.eof), s, []) := by
  have hlt : ¬ s.pos < s.size := not_lt.mpr hp
  simp [Read, hr, hlt]

/-- Witness for the amended C2 at a concrete state at end of object. -/
theorem C2_read_eof_witness :
    Read ⟨false, 10, 10, 4⟩ none (3, none) = ((0, some GoErr.eof), ⟨false, 10, 10, 4⟩, []) :=
  C2_read_eof ⟨false, 10, 10, 4⟩ none (3, none) rfl (by decide)

/-- Claim C10: a freshly constructed reader has logical position 0, byte
counter 0 (so NRead returns 0) and no open stream; `NewReader` on a
successful attrs fetch yields exactly that reader; and the first Read on a
non-empty object opens its range stream at byte 0. -/
theorem C10_fresh_reader (sz : Int) (oe : Option GoErr) (sr : Nat × Option GoErr) :
    NewReaderWithSize sz = { r := false, pos := 0, size := sz, nread := 0 } ∧
    NRead (NewReaderWithSize sz) = 0 ∧
    NewReader (Except.ok sz) = Except.ok (NewReaderWithSize sz) ∧
    (0 < sz → Effect.openRange 0 ∈ (Read (NewReaderWithSize sz) oe sr).2.2) := by
  refine ⟨rfl, rfl, rfl, fun hsz => ?_⟩
  cases oe <;> simp [Read, NewReaderWithSize, hsz]

/-- Witness for C10 on an object of size 1. -/
theorem C10_fresh_reader_witness :
    NewReaderWithSize 1 = { r := false, pos := 0, size := 1, nread := 0 } ∧
    NRead (NewReaderWithSize 1) = 0 ∧
    NewReader (Except.ok 1) = Except.ok (NewReaderWithSize 1) ∧
    ((0 : Int) < 1 → Effect.openRange 0 ∈ (Read (NewReaderWithSize 1) none (1, none)).2.2) :=
  C10_fresh_reader 1 none (1, none)

/-- Claim C3: across every sequence of Read, Seek and Close operations,
NRead of the final state equals the exact sum of the byte counts returned by
the Reads of the trace (from a fresh reader, whose counter starts at 0), and
NRead is non-decreasing: from any state, running any further operations
never decreases it. -/
theorem C3_nread_accounting (sz : Int) (ops : List Op) (s : Reader)
    (more : List Op) :
    NRead (run (NewReaderWithSize sz) ops) = readSum (NewReaderWithSize sz) ops ∧
    NRead s ≤ NRead (run s more) := by
  constructor
  · rw [NRead, run_nread]
    simp [NewReaderWithSize]
  · rw [NRead, NRead, run_nread]
    have := readSum_nonneg more s
    omega

/-- Counterexample to C6 as stated: from a fresh reader on a size-10 object,
`Seek(-1, SeekStart)` is accepted without validation and leaves the logical
position negative, violating the invariant `0 <= logicalPosition`. -/
theorem C6_counterexample :
    (run (NewReaderWithSize 10) [Op.seek none (-1) 0]).pos < 0 := by
  decide

/-- Claim C6 (amended): from any state with a non-negative position (in
particular a freshly constructed reader), every trace of Read, Seek and
Close operations in which each Seek returns a non-negative position keeps
the logical position non-negative — Read and Close never decrease it; only
a Seek computing a negative target can break it. -/
theorem C6_pos_invariant (s : Reader) (ops : List Op)
    (hs : 0 ≤ s.pos) (h : seeksNonneg s ops = true) :
    0 ≤ (run s ops).pos :=
  run_pos_nonneg ops s hs h

/-- Witness for the amended C6 on a fresh reader with a forward seek and a
read. -/
theorem C6_pos_invariant_witness :
    0 ≤ (run (NewReaderWithSize 10) [Op.seek none 3 0, Op.read none (2, none)]).pos :=
  C6_pos_invariant (NewReaderWithSize 10) [Op.seek none 3 0, Op.read none (2, none)]
    (by decide) (by decide)

/-- Claim C9: Seek performs no I/O beyond closing an already-open stream
(its effect list is exactly one `closeStream` when a stream is open and
empty otherwise — never an `openRange`), and a freshly constructed reader
followed by any sequence of Seek operations performs zero range-fetch
operations. -/
theorem C9_seek_no_fetch (s : Reader) (ce : Option GoErr) (off w : Int)
    (sz : Int) (ops : List Op) (hops : ∀ op ∈ ops, op.isSeek = true) :
    (Seek s ce off w).2.2 = (if s.r then [Effect.closeStream] else []) ∧
    noOpen (runEff (NewReaderWithSize sz) ops) = true :=
  ⟨Seek_eff s ce off w, seeks_noOpen ops (NewReaderWithSize sz) hops⟩

/-- Witness for C9: a concrete Seek on an open-stream state, and a fresh
reader seeked twice without reading. -/
theorem C9_seek_no_fetch_witness :
    (Seek ⟨true, 5, 10, 0⟩ none 3 0).2.2
        = (if (⟨true, 5, 10, 0⟩ : Reader).r then [Effect.closeStream] else []) ∧
    noOpen (runEff (NewReaderWithSize 10) [Op.seek none 3 0, Op.seek none (-2) 1]) = true :=
  C9_seek_no_fetch ⟨true, 5, 10, 0⟩ none 3 0 10 [Op.seek none 3 0, Op.seek none (-2) 1]
    (by decide)

end Gcsobj
